import Mathlib

/-!
Verification of the Nation UHF RFID reader driver
(`refactor-but-have-not-check/nation.py`) against its design document.

Bytes are modelled as natural numbers (well-formed inputs carry values
below 256); Python byte strings become `List Nat`.  Functions that raise
`ValueError` are modelled with `Except String`.  All definitions follow
the Python source line by line; the few deliberate deviations (for
example, hex strings given as digit values) are stated in doc comments.
-/

namespace Nation

/-- Big-endian integer value of a byte list, as Python
`int.from_bytes(data, 'big')`. -/
def beVal (l : List Nat) : Nat :=
  l.foldl (fun acc b => acc * 256 + b) 0

/-- Python `x.to_bytes(2, 'big')` (the caller guarantees `x < 2^16`). -/
def beBytes2 (x : Nat) : List Nat :=
  [(x >>> 8) &&& 0xFF, x &&& 0xFF]

/-- Python `x.to_bytes(4, 'big')` (the caller guarantees `x < 2^32`). -/
def beBytes4 (x : Nat) : List Nat :=
  [(x >>> 24) &&& 0xFF, (x >>> 16) &&& 0xFF, (x >>> 8) &&& 0xFF, x &&& 0xFF]

/-- Module-level constant `FRAME_HEADER` of `nation.py`. -/
def FRAME_HEADER : Nat := 0x5A

/-- Module-level constant `PROTO_TYPE` of `nation.py`. -/
def PROTO_TYPE : Nat := 0x00

/-- Module-level constant `PROTO_VER` of `nation.py`. -/
def PROTO_VER : Nat := 0x01

/-- Module-level constant `CRC16_CCITT_INIT` of `nation.py`. -/
def CRC16_CCITT_INIT : Nat := 0x0000

/-- Module-level constant `CRC16_CCITT_POLY` of `nation.py`. -/
def CRC16_CCITT_POLY : Nat := 0x8005

/-- One shift-XOR iteration of the inner `for _ in range(8)` loop of
`NationReader.crc16_ccitt`. -/
def crcBitStep (crc : Nat) : Nat :=
  if crc &&& 0x8000 ≠ 0 then ((crc <<< 1) ^^^ CRC16_CCITT_POLY) &&& 0xFFFF
  else (crc <<< 1) &&& 0xFFFF

/-- The inner loop of `NationReader.crc16_ccitt`, run `n` times
(the source runs it 8 times per byte). -/
def crcBitLoop : Nat → Nat → Nat
  | 0, crc => crc
  | n + 1, crc => crcBitLoop n (crcBitStep crc)

/-- Body of the outer `for byte_val in data` loop of
`NationReader.crc16_ccitt`: `crc ^= byte_val << 8` followed by the eight
shift-XOR iterations. -/
def crcByteStep (crc b : Nat) : Nat :=
  crcBitLoop 8 (crc ^^^ (b <<< 8))

/-- `NationReader.crc16_ccitt(data)`. -/
def crc16_ccitt (data : List Nat) : Nat :=
  data.foldl crcByteStep CRC16_CCITT_INIT

/-- `NationReader.build_pcw(category, mid, rs485, notify)`. -/
def build_pcw (category mid : Nat) (rs485 notify : Bool) : Nat :=
  let pcw := (PROTO_TYPE <<< 24) ||| (PROTO_VER <<< 16)
  let pcw := if rs485 then pcw ||| (1 <<< 13) else pcw
  let pcw := if notify then pcw ||| (1 <<< 12) else pcw
  pcw ||| ((category <<< 8) ||| mid)

/-- `NationReader.build_frame(mid, payload, rs485, notify)`.  The MID is
given as its integer value (`mid_value` in the source). -/
def build_frame (mid_value : Nat) (payload : List Nat)
    (rs485 notify : Bool) : List Nat :=
  let category := (mid_value >>> 8) &&& 0xFF
  let mid_code := mid_value &&& 0xFF
  let pcw := build_pcw category mid_code rs485 notify
  let pcw_bytes := beBytes4 pcw
  let addr_bytes : List Nat := if rs485 then [0x00] else []
  let length_bytes := beBytes2 payload.length
  let frame_content := pcw_bytes ++ addr_bytes ++ length_bytes ++ payload
  let crc_bytes := beBytes2 (crc16_ccitt frame_content)
  FRAME_HEADER :: (frame_content ++ crc_bytes)

/-- The dictionary returned by `NationReader.parse_frame`. -/
structure ParsedFrame where
  proto_type : Nat
  proto_ver : Nat
  rs485 : Bool
  notify : Bool
  pcw : Nat
  category : Nat
  mid : Nat
  address : Option Nat
  data_length : Nat
  data : List Nat
  crc : Nat
  deriving Repr, DecidableEq

/-- `NationReader.parse_frame(raw)`; each `ValueError` becomes an
`Except.error`. -/
def parse_frame (raw : List Nat) : Except String ParsedFrame :=
  if raw.length < 9 then
    .error "Frame too short. Minimum 9 bytes required."
  else if raw.headD 0 ≠ FRAME_HEADER then
    .error "Invalid frame header."
  else
    let pcw := beVal ((raw.drop 1).take 4)
    let proto_type := (pcw >>> 24) &&& 0xFF
    let proto_ver := (pcw >>> 16) &&& 0xFF
    let rs485_flag := (pcw >>> 13) &&& 0x01
    let notify_flag := (pcw >>> 12) &&& 0x01
    let category := (pcw >>> 8) &&& 0xFF
    let mid := pcw &&& 0xFF
    if rs485_flag = 1 ∧ raw.length ≤ 5 then
      .error "Frame truncated: Missing RS485 address byte."
    else
      let addrLen := if rs485_flag = 1 then 1 else 0
      let addr : Option Nat :=
        if rs485_flag = 1 then some ((raw.drop 5).headD 0) else none
      let lenOff := 5 + addrLen
      if lenOff + 2 > raw.length then
        .error "Frame truncated: Missing data length bytes."
      else
        let data_len := beVal ((raw.drop lenOff).take 2)
        let dataOff := lenOff + 2
        if dataOff + data_len + 2 > raw.length then
          .error "Frame length mismatch or truncated."
        else
          let data := (raw.drop dataOff).take data_len
          let crcOff := dataOff + data_len
          let received_crc := beVal ((raw.drop crcOff).take 2)
          let calculated_crc := crc16_ccitt ((raw.drop 1).take (crcOff - 1))
          if received_crc ≠ calculated_crc then
            .error "CRC mismatch!"
          else
            .ok { proto_type := proto_type, proto_ver := proto_ver,
                  rs485 := rs485_flag = 1, notify := notify_flag = 1,
                  pcw := pcw, category := category, mid := mid,
                  address := addr, data_length := data_len, data := data,
                  crc := received_crc }

/-- Expected full frame length computed by `NationReader.extract_valid_frames`
from the bytes at a candidate header position: it peeks the PCW at offsets
1..5 and — regardless of the RS485 flag — the length field at offsets 5..7,
then adds header(1) + PCW(4) + address(0/1) + length(2) + payload + CRC(2). -/
def peekFullLen (l : List Nat) : Nat :=
  let pcw_peek := beVal ((l.drop 1).take 4)
  let rs485_flag_peek := (pcw_peek >>> 13) &&& 0x01
  let length := beVal ((l.drop 5).take 2)
  let addr_len := if rs485_flag_peek = 1 then 1 else 0
  1 + 4 + addr_len + 2 + length + 2

/-- CRC acceptance test of `NationReader.extract_valid_frames` on a candidate
frame: recompute over `frame[1:-2]` and compare with the last two bytes. -/
def frameCrcOk (frame : List Nat) : Bool :=
  crc16_ccitt ((frame.drop 1).take (frame.length - 3)) =
    beVal (frame.drop (frame.length - 2))

/-- The `while i < len(data)` loop of `NationReader.extract_valid_frames`,
phrased on the suffix of the buffer that starts at the scan index `i`.
Returns the accepted frames together with the suffix that was left
unprocessed when the loop broke off (empty when the scan ran to the end).
`fuel` bounds the recursion; `extract_valid_frames` passes the buffer
length, which always suffices since every step consumes at least one byte. -/
def extractGo : Nat → List Nat → List (List Nat) → List (List Nat) × List Nat
  | 0, l, acc => (acc, l)
  | _ + 1, [], acc => (acc, [])
  | fuel + 1, d :: rest, acc =>
    if d ≠ FRAME_HEADER then extractGo fuel rest acc
    else if (d :: rest).length < 9 then (acc, d :: rest)
    else
      let full := peekFullLen (d :: rest)
      if (d :: rest).length < full then (acc, d :: rest)
      else
        let frame := (d :: rest).take full
        if frameCrcOk frame then
          extractGo fuel ((d :: rest).drop full) (acc ++ [frame])
        else
          extractGo fuel ((d :: rest).drop full) acc

/-- `NationReader.extract_valid_frames(data)`: the list of validated frames
(and nothing else — the Python function returns only this list). -/
def extract_valid_frames (data : List Nat) : List (List Nat) :=
  (extractGo data.length data []).1

/-- The suffix of the buffer not processed by the scan of
`extract_valid_frames` (the bytes from the final value of the loop index `i`
on); the number of bytes the scan consumed is the buffer length minus the
length of this suffix.  This value is computed by the loop in the source but
not returned. -/
def extractRest (data : List Nat) : List Nat :=
  (extractGo data.length data []).2

/-- Bytes consumed by the scan of `extract_valid_frames`: the final value of
the loop index `i` in the source. -/
def extractConsumed (data : List Nat) : Nat :=
  data.length - (extractRest data).length

/-- Python `haystack.find(needle)`: index of the first occurrence of
`needle` as a contiguous sub-list, or `-1` when absent. -/
def pyFind (haystack needle : List Nat) : Int :=
  go haystack 0
where
  go : List Nat → Nat → Int
    | [], _ => if needle = [] then 0 else -1
    | h :: t, i =>
      if needle.isPrefixOf (h :: t) then (i : Int)
      else go t (i + 1)

/-- The buffer-trim step of `NationReader._receive_inventory_loop_optimized`
(lines 1175–1183): when frames were extracted, locate the last extracted
frame by a byte-pattern search (`buffer.find(last_frame)`) and keep the part
of the buffer after that first occurrence. -/
def inventoryTrim (buffer : List Nat) (frames : List (List Nat)) : List Nat :=
  match frames.getLast? with
  | none => buffer
  | some last_frame =>
    let idx := (pyFind buffer last_frame + last_frame.length).toNat
    buffer.drop idx

/-- The dictionary returned by `NationReader.parse_epc` on success. -/
structure EpcResult where
  epc : String
  pc : String
  antenna_id : Nat
  rssi : Option Nat
  deriving Repr, DecidableEq

/-- Upper-case hex digit characters, as produced by Python
`bytes.hex().upper()` for byte values below 256. -/
def hexChar (n : Nat) : Char :=
  "0123456789ABCDEF".toList.getD n 'X'

/-- Python `data.hex().upper()` for a list of byte values. -/
def hexUpper (data : List Nat) : String :=
  String.mk (data.flatMap fun b => [hexChar (b / 16), hexChar (b % 16)])

/-- `NationReader.parse_epc(data)`; the `except` branch that converts a
raised `ValueError` into an error dictionary is modelled by `Except.error`. -/
def parse_epc (data : List Nat) : Except String EpcResult :=
  if data.length < 2 then
    .error "Data too short to extract EPC length."
  else
    let epc_len := beVal (data.take 2)
    if 2 + epc_len > data.length then
      .error "EPC data truncated."
    else
      let epc := hexUpper ((data.drop 2).take epc_len)
      let pc_offset := 2 + epc_len
      if pc_offset + 2 > data.length then
        .error "Data too short to extract PC bits."
      else
        let pc := hexUpper ((data.drop pc_offset).take 2)
        let antenna_id_offset := pc_offset + 2
        if antenna_id_offset ≥ data.length then
          .error "Data too short to extract Antenna ID."
        else
          let antenna_id := (data.drop antenna_id_offset).headD 0
          let rssi : Option Nat :=
            if data.length > antenna_id_offset + 1 then
              let pid_offset := antenna_id_offset + 1
              let pid := (data.drop pid_offset).headD 0
              if pid = 0x01 ∧ data.length > pid_offset + 1 then
                some ((data.drop (pid_offset + 1)).headD 0)
              else none
            else none
          .ok { epc := epc, pc := pc, antenna_id := antenna_id, rssi := rssi }

/-- `NationReader.build_antenna_mask(antenna_ids)`: the `for` loop with its
mid-loop `ValueError` modelled as an accumulating recursion into
`Except String`. -/
def build_antenna_mask_go (ids : List Nat) (mask : Nat) : Except String Nat :=
  match ids with
  | [] => .ok mask
  | ant_id :: rest =>
    if 1 ≤ ant_id ∧ ant_id ≤ 32 then
      build_antenna_mask_go rest (mask ||| (1 <<< (ant_id - 1)))
    else
      .error "Antenna ID is out of valid range (1-32)."

/-- `NationReader.build_antenna_mask(antenna_ids)`. -/
def build_antenna_mask (antenna_ids : List Nat) : Except String Nat :=
  build_antenna_mask_go antenna_ids 0

/-- `NationReader.all_read_end_mids()`. -/
def all_read_end_mids : List Nat := [0x01, 0x21, 0x31]

/-- MID value `MID.STOP_OPERATION` (`0xFF`). -/
def STOP_OPERATION : Nat := 0xFF

/-- The verdict the body of the confirmation loop of
`NationReader.stop_inventory` (lines 1319–1354) reaches on a single
extracted frame: `some true` / `some false` when the loop returns, `none`
when the frame is skipped (parse failure or unrelated MID). -/
def stopFrameVerdict (frame : List Nat) : Option Bool :=
  match parse_frame frame with
  | .error _ => none
  | .ok p =>
    if p.mid = STOP_OPERATION then
      -- result_code = data[0] if data else -1; success iff it is 0x00
      some (p.data.headD 1 = 0)
    else if p.mid ∈ all_read_end_mids then
      -- both the reason-1 branch and the other-reason branch return True
      some true
    else
      none

/-- First verdict reached over a list of frames, in order. -/
def stopFramesVerdict : List (List Nat) → Option Bool
  | [] => none
  | f :: fs =>
    match stopFrameVerdict f with
    | some b => some b
    | none => stopFramesVerdict fs

/-- The `for attempt in range(10)` confirmation loop of
`NationReader.stop_inventory` (steps 4, lines 1309–1363), as a function of
the chunks the serial port delivers on the successive receive calls: each
attempt extracts the frames of its chunk and scans them for a decisive
response; after ten undecided attempts the function returns `False`. -/
def stop_confirm (chunks : List (List Nat)) : Bool :=
  go (chunks.take 10)
where
  go : List (List Nat) → Bool
    | [] => false
    | c :: rest =>
      match stopFramesVerdict (extract_valid_frames c) with
      | some b => b
      | none => go rest

set_option maxRecDepth 100000

/-- Helper: whether an `Except` value is a success. -/
def isOkE : Except String α → Bool
  | .ok _ => true
  | .error _ => false

instance {ε α : Type} [DecidableEq ε] [DecidableEq α] :
    DecidableEq (Except ε α) := fun a b =>
  match a, b with
  | .ok x, .ok y =>
    if h : x = y then .isTrue (by subst h; rfl)
    else .isFalse (fun hh => h (Except.ok.inj hh))
  | .error x, .error y =>
    if h : x = y then .isTrue (by subst h; rfl)
    else .isFalse (fun hh => h (Except.error.inj hh))
  | .ok _, .error _ => .isFalse (fun hh => Except.noConfusion hh)
  | .error _, .ok _ => .isFalse (fun hh => Except.noConfusion hh)

/-- Concrete frames used in the concrete theorems below. -/
def frameTag : List Nat := build_frame 0x0210 [0xAA] false false

/-- A valid stop-response-shaped frame (MID `0x02FF`, empty payload). -/
def frameStop : List Nat := build_frame 0x02FF [] false false

/-- A minimal valid frame (MID `0x0000`, empty payload), used as the
payload of `frameOuter`. -/
def frameInner : List Nat := build_frame 0x0000 [] false false

/-- A valid frame whose payload is exactly the bytes of `frameInner`. -/
def frameOuter : List Nat := build_frame 0x0210 frameInner false false

/-- A byte sequence that `extract_valid_frames` accepts as one frame but
`parse_frame` rejects: its PCW has the RS485 bit set, so `parse_frame`
reads the length field after the address byte (`0x0005`) while the
extractor peeked it at offset 5 (`0x0000`). -/
def frameRs485Bad : List Nat :=
  let pre : List Nat := [0x00, 0x01, 0x20, 0x00, 0x00, 0x00, 0x05]
  0x5A :: (pre ++ beBytes2 (crc16_ccitt pre))

/-- A valid read-end notification frame with reason code 2
(not "stopped by command"). -/
def frameReadEndReason2 : List Nat := build_frame 0x0221 [0x02] false true

/-- The confirmations the specification recognises for `stop_inventory`:
some extracted frame of the first ten received chunks is a direct
stop-success response (MID `0xFF`, result code 0) or a read-end
notification whose reason code is 1 ("stopped by command"). -/
def claimedStopEvidence (chunks : List (List Nat)) : Bool :=
  ((chunks.take 10).flatMap extract_valid_frames).any fun f =>
    match parse_frame f with
    | .error _ => false
    | .ok p =>
      decide ((p.mid = STOP_OPERATION ∧ p.data.headD 1 = 0) ∨
              (p.mid ∈ all_read_end_mids ∧ p.data.headD 0 = 1))

theorem and_255_eq_mod (n : Nat) : n &&& 0xFF = n % 256 := by
  have h := Nat.and_pow_two_sub_one_eq_mod n 8
  norm_num at h
  exact h

theorem and_65535_eq_mod (n : Nat) : n &&& 0xFFFF = n % 65536 := by
  have h := Nat.and_pow_two_sub_one_eq_mod n 16
  norm_num at h
  exact h

theorem and_1_eq_mod (n : Nat) : n &&& 1 = n % 2 := Nat.and_one_is_mod n

theorem beVal_beBytes2 (x : Nat) (h : x < 65536) : beVal (beBytes2 x) = x := by
  simp only [beVal, beBytes2, List.foldl, Nat.shiftRight_eq_div_pow, and_255_eq_mod]
  omega

theorem beVal_beBytes4 (x : Nat) (h : x < 4294967296) :
    beVal (beBytes4 x) = x := by
  simp only [beVal, beBytes4, List.foldl, Nat.shiftRight_eq_div_pow, and_255_eq_mod]
  omega

theorem beBytes2_length (x : Nat) : (beBytes2 x).length = 2 := rfl

theorem beBytes4_length (x : Nat) : (beBytes4 x).length = 4 := rfl

theorem shiftLeft_or_eq_add (a b n : Nat) (h : b < 2 ^ n) :
    (a <<< n) ||| b = a * 2 ^ n + b := by
  rw [Nat.mul_comm]
  apply Nat.eq_of_testBit_eq
  intro i
  rw [Nat.testBit_or, Nat.testBit_shiftLeft, Nat.testBit_mul_pow_two_add a h]
  by_cases hi : i < n
  · simp [Nat.not_le.mpr hi, hi]
  · have hb : b.testBit i = false :=
      Nat.testBit_lt_two_pow
        (lt_of_lt_of_le h (Nat.pow_le_pow_right (by norm_num) (Nat.le_of_not_lt hi)))
    simp [Nat.le_of_not_lt hi, hi, hb]

theorem build_pcw_val (c m : Nat) (hc : c < 256) (hm : m < 256) :
    build_pcw c m false false = 65536 + c * 256 + m := by
  have h1 : (c <<< 8) ||| m = c * 256 + m := by
    have := shiftLeft_or_eq_add c m 8 (by omega)
    simpa using this
  have h2 : (1 <<< 16) ||| (c * 256 + m) = 65536 + (c * 256 + m) := by
    have := shiftLeft_or_eq_add 1 (c * 256 + m) 16 (by omega)
    simpa using this
  simp only [build_pcw, PROTO_TYPE, PROTO_VER, if_neg, Bool.false_eq_true,
    not_false_eq_true, if_false]
  simp only [Nat.zero_shiftLeft, Nat.zero_or, h1, h2]
  omega

theorem crcBitStep_lt (c : Nat) : crcBitStep c < 65536 := by
  unfold crcBitStep
  split <;> rw [and_65535_eq_mod] <;> omega

theorem crcBitLoop_lt (n c : Nat) : crcBitLoop (n + 1) c < 65536 := by
  induction n generalizing c with
  | zero => exact crcBitStep_lt c
  | succ k ih => exact ih (crcBitStep c)

theorem crcByteStep_lt (c b : Nat) : crcByteStep c b < 65536 :=
  crcBitLoop_lt 7 _

theorem crc16_fold_lt (l : List Nat) (init : Nat) (h : init < 65536) :
    l.foldl crcByteStep init < 65536 := by
  induction l generalizing init with
  | nil => exact h
  | cons b t ih => exact ih _ (crcByteStep_lt init b)

theorem crc16_ccitt_lt (data : List Nat) : crc16_ccitt data < 65536 :=
  crc16_fold_lt data 0 (by omega)

/-- Modelled from the spec (§4.2 `crc16`): CRC-16 with initial value 0 and
polynomial `0x8005`, MSB-first bit processing, one byte at a time, eight
shift-XOR iterations per byte — stated independently of the source's
bitmask idiom, with the MSB test via `testBit 15` and reduction mod
`2^16`. -/
def crc16_reference (data : List Nat) : Nat :=
  data.foldl (fun crc b => refBitStep^[8] (crc ^^^ (b <<< 8))) 0
where
  refBitStep (crc : Nat) : Nat :=
    if crc.testBit 15 then ((crc <<< 1) ^^^ 0x8005) % 65536
    else (crc <<< 1) % 65536

theorem crcBitStep_eq_ref (c : Nat) : crcBitStep c = crc16_reference.refBitStep c := by
  unfold crcBitStep crc16_reference.refBitStep CRC16_CCITT_POLY
  have ht : c &&& 0x8000 = (c.testBit 15).toNat * 2 ^ 15 := by
    have := Nat.and_two_pow c 15
    simpa using this
  rcases hb : c.testBit 15 with _ | _ <;>
    simp [ht, hb, and_65535_eq_mod]

theorem crcBitLoop_eq_iterate (n c : Nat) :
    crcBitLoop n c = crc16_reference.refBitStep^[n] c := by
  induction n generalizing c with
  | zero => rfl
  | succ k ih =>
    rw [Function.iterate_succ_apply]
    simpa [crcBitLoop, crcBitStep_eq_ref] using ih (crc16_reference.refBitStep c)

/-- C5: `crc16_ccitt` implements the reference CRC-16 algorithm of the
specification — initial value 0, polynomial `0x8005`, MSB-first, one byte
at a time, 8 shift-XOR iterations per byte — and always returns a 16-bit
value. -/
theorem c5_crc16_correct :
    (∀ data, crc16_ccitt data = crc16_reference data) ∧
    (∀ data, crc16_ccitt data < 65536) := by
  constructor
  · intro data
    unfold crc16_ccitt crc16_reference CRC16_CCITT_INIT
    congr 1
    funext crc b
    exact crcBitLoop_eq_iterate 8 (crc ^^^ (b <<< 8))
  · exact crc16_ccitt_lt

/-- C1 counterexample: for command identifier `M = 0x2000` (category
`0x20`, rs485 and notify arguments both false) the claimed roundtrip
fails — `category << 8` sets bit 13 of the PCW, so `parse_frame` expects
an address byte that `build_frame` never emitted and rejects the frame. -/
theorem c1_roundtrip_counterexample :
    isOkE (parse_frame (build_frame 0x2000 [] false false)) = false := by
  decide

/-- C2 counterexample: two equal-length buffers on which
`extract_valid_frames` returns identical results while the scan consumes
a different number of bytes — so the value returned by the Python
function (the frame list alone) does not carry the consumed byte count
the claim says it returns. -/
theorem c2_consumed_counterexample :
    extract_valid_frames (frameStop ++ [0x5A]) =
      extract_valid_frames (frameStop ++ [0x00]) ∧
    (frameStop ++ [0x5A]).length = (frameStop ++ [0x00]).length ∧
    extractConsumed (frameStop ++ [0x5A]) ≠
      extractConsumed (frameStop ++ [0x00]) := by
  decide

/-- C2 amended: `extract_valid_frames` returns only the list of validated
frames; on a buffer holding exactly two valid back-to-back frames it
returns exactly those two frames and the scan consumes their combined
length, leaving no unprocessed suffix (although the consumed count is
computed only internally and not returned). -/
theorem c2_two_frames_amended :
    extract_valid_frames (frameTag ++ frameStop) = [frameTag, frameStop] ∧
    extractConsumed (frameTag ++ frameStop) = (frameTag ++ frameStop).length ∧
    extractRest (frameTag ++ frameStop) = [] := by
  decide

/-- C3 (code bug): on a buffer holding two valid frames where the second
frame's bytes also occur inside the first frame's payload, the worker's
trim step (`buffer.find(last_frame)`) cuts at the first occurrence and
retains 11 stale bytes (the tail of the first frame plus a duplicate of
the second), while the bytes actually consumed by extraction cover the
whole buffer, so the retained buffer should be empty. -/
theorem c3_trim_divergence :
    inventoryTrim (frameOuter ++ frameInner)
        (extract_valid_frames (frameOuter ++ frameInner)) =
      (frameOuter ++ frameInner).drop 16 ∧
    extractRest (frameOuter ++ frameInner) = [] ∧
    (frameOuter ++ frameInner).drop 16 ≠ [] := by
  decide

/-- C10 counterexample: `extract_valid_frames` accepts `frameRs485Bad`
as a complete valid frame (its CRC over `frame[1:-2]` matches), yet
`parse_frame` rejects that very byte sequence, because the extractor
peeks the length field at offset 5 even when the RS485 bit is set while
the parser reads it after the address byte. -/
theorem c10_extract_parse_counterexample :
    extract_valid_frames frameRs485Bad = [frameRs485Bad] ∧
    isOkE (parse_frame frameRs485Bad) = false := by
  decide

/-- C7 counterexample: a received chunk holding only a read-end
notification with reason code 2 (not "stopped by command") makes the
confirmation loop of `stop_inventory` return `True`, although neither a
direct stop-success response nor a reason-1 read-end notification was
received, contradicting the claim's "exactly when". -/
theorem c7_stop_counterexample :
    stop_confirm [frameReadEndReason2] = true ∧
    claimedStopEvidence [frameReadEndReason2] = false := by
  decide

theorem build_antenna_mask_go_ok (ids : List Nat) (m : Nat)
    (h : ∀ i ∈ ids, 1 ≤ i ∧ i ≤ 32) :
    build_antenna_mask_go ids m =
      .ok (ids.foldl (fun acc i => acc ||| (1 <<< (i - 1))) m) := by
  induction ids generalizing m with
  | nil => rfl
  | cons a t ih =>
    have ha := h a (by simp)
    simp only [build_antenna_mask_go, if_pos ha, List.foldl]
    exact ih _ (fun i hi => h i (by simp [hi]))

theorem build_antenna_mask_go_err (ids : List Nat) (m : Nat)
    (h : ∃ i ∈ ids, ¬(1 ≤ i ∧ i ≤ 32)) :
    isOkE (build_antenna_mask_go ids m) = false := by
  induction ids generalizing m with
  | nil => simp at h
  | cons a t ih =>
    by_cases ha : 1 ≤ a ∧ a ≤ 32
    · simp only [build_antenna_mask_go, if_pos ha]
      apply ih
      rcases h with ⟨i, hi, hbad⟩
      rcases List.mem_cons.mp hi with rfl | hit
      · exact absurd ha hbad
      · exact ⟨i, hit, hbad⟩
    · simp only [build_antenna_mask_go, if_neg ha, isOkE]

theorem antenna_fold_testBit (ids : List Nat) (m j : Nat) :
    ((ids.foldl (fun acc i => acc ||| (1 <<< (i - 1))) m).testBit j) =
      (m.testBit j || ids.any fun i => decide (i - 1 = j)) := by
  induction ids generalizing m with
  | nil => simp
  | cons a t ih =>
    simp only [List.foldl, List.any_cons, ih]
    have hpow : (1 <<< (a - 1)) = 2 ^ (a - 1) := by
      rw [Nat.shiftLeft_eq, Nat.one_mul]
    rw [Nat.testBit_or, hpow]
    rcases eq_or_ne (a - 1) j with he | hne
    · simp [he, Nat.testBit_two_pow_self, Bool.or_comm, Bool.or_assoc]
    · simp [Nat.testBit_two_pow_of_ne hne, hne]

/-- C9: for a list of antenna ids all in 1..32, `build_antenna_mask`
returns the mask whose set bits are exactly the bits `i - 1` for the ids
`i` in the list; for a list containing an id outside 1..32 it raises the
range `ValueError`. -/
theorem c9_build_antenna_mask (ids : List Nat) :
    ((∀ i ∈ ids, 1 ≤ i ∧ i ≤ 32) →
      ∃ m, build_antenna_mask ids = .ok m ∧
        ∀ j, m.testBit j = decide (j + 1 ∈ ids)) ∧
    ((∃ i ∈ ids, ¬(1 ≤ i ∧ i ≤ 32)) →
      isOkE (build_antenna_mask ids) = false) := by
  constructor
  · intro h
    refine ⟨_, build_antenna_mask_go_ok ids 0 h, ?_⟩
    intro j
    rw [antenna_fold_testBit]
    simp only [Nat.zero_testBit, Bool.false_or]
    rcases hmem : decide (j + 1 ∈ ids) with _ | _
    · simp only [decide_eq_false_iff_not] at hmem
      rw [List.any_eq_false]
      intro i hi
      have hi1 := (h i hi).1
      have hne : i - 1 ≠ j := by
        intro hij
        have hji : j + 1 = i := by omega
        exact hmem (hji ▸ hi)
      simp [hne]
    · rw [List.any_eq_true]
      exact ⟨j + 1, of_decide_eq_true hmem, by simp⟩
  · exact build_antenna_mask_go_err ids 0

/-- C9 witness: `build_antenna_mask [1,3]` yields a mask whose only set
bits are 0 and 2 (value 5), and `build_antenna_mask [33]` fails. -/
theorem c9_build_antenna_mask_witness :
    (∃ m, build_antenna_mask [1, 3] = .ok m ∧
      ∀ j, m.testBit j = decide (j + 1 ∈ [1, 3])) ∧
    isOkE (build_antenna_mask [33]) = false :=
  ⟨(c9_build_antenna_mask [1, 3]).1 (by decide),
   (c9_build_antenna_mask [33]).2 ⟨33, by decide, by decide⟩⟩

theorem take2_beBytes2 (n : Nat) (X : List Nat) :
    (beBytes2 n ++ X).take 2 = beBytes2 n := List.take_left' (beBytes2_length n)

theorem drop2_beBytes2 (n : Nat) (X : List Nat) :
    (beBytes2 n ++ X).drop 2 = X := List.drop_left' (beBytes2_length n)

/-- C8: on a tag-data payload of the shape 2-byte EPC length, EPC bytes,
2-byte PC, 1-byte antenna id, optionally followed by the tag byte `0x01`
and an RSSI value byte, `parse_epc` returns the EPC as upper-case hex,
the antenna id, and the RSSI value when the `0x01` tag is present or
`none` when it is omitted. -/
theorem c8_parse_epc (epc : List Nat) (p1 p2 ant rv : Nat)
    (h : epc.length < 65536) :
    parse_epc (beBytes2 epc.length ++ (epc ++ ([p1, p2] ++ ([ant] ++ [0x01, rv])))) =
      .ok { epc := hexUpper epc, pc := hexUpper [p1, p2],
            antenna_id := ant, rssi := some rv } ∧
    parse_epc (beBytes2 epc.length ++ (epc ++ ([p1, p2] ++ [ant]))) =
      .ok { epc := hexUpper epc, pc := hexUpper [p1, p2],
            antenna_id := ant, rssi := none } := by
  constructor
  · have hlen : (beBytes2 epc.length ++
        (epc ++ ([p1, p2] ++ ([ant] ++ [0x01, rv])))).length = epc.length + 7 := by
      simp [beBytes2]
    have hev : beVal ((beBytes2 epc.length ++
        (epc ++ ([p1, p2] ++ ([ant] ++ [0x01, rv])))).take 2) = epc.length := by
      rw [take2_beBytes2, beVal_beBytes2 _ h]
    have hd2 : (beBytes2 epc.length ++
        (epc ++ ([p1, p2] ++ ([ant] ++ [0x01, rv])))).drop 2 =
        epc ++ ([p1, p2] ++ ([ant] ++ [0x01, rv])) := drop2_beBytes2 _ _
    have hdA : (beBytes2 epc.length ++
        (epc ++ ([p1, p2] ++ ([ant] ++ [0x01, rv])))).drop (2 + epc.length) =
        [p1, p2] ++ ([ant] ++ [0x01, rv]) := by
      rw [← List.drop_drop, hd2, List.drop_left]
    have hdB : (beBytes2 epc.length ++
        (epc ++ ([p1, p2] ++ ([ant] ++ [0x01, rv])))).drop (2 + epc.length + 2) =
        [ant] ++ [0x01, rv] := by
      rw [← List.drop_drop, hdA]; rfl
    have hdC : (beBytes2 epc.length ++
        (epc ++ ([p1, p2] ++ ([ant] ++ [0x01, rv])))).drop (2 + epc.length + 2 + 1) =
        [0x01, rv] := by
      rw [← List.drop_drop, hdB]; rfl
    have hdD : (beBytes2 epc.length ++
        (epc ++ ([p1, p2] ++ ([ant] ++ [0x01, rv])))).drop (2 + epc.length + 2 + 1 + 1) =
        [rv] := by
      rw [← List.drop_drop, hdC]; rfl
    simp only [parse_epc, hev, hd2, hlen, hdA, hdB, hdC, hdD]
    rw [if_neg (by omega), if_neg (by omega), if_neg (by omega), if_neg (by omega),
      if_pos (by omega)]
    rw [List.take_left, if_pos (by constructor; rfl; omega)]
    simp [List.take_left']
  · have hlen : (beBytes2 epc.length ++
        (epc ++ ([p1, p2] ++ [ant]))).length = epc.length + 5 := by
      simp [beBytes2]
    have hev : beVal ((beBytes2 epc.length ++
        (epc ++ ([p1, p2] ++ [ant]))).take 2) = epc.length := by
      rw [take2_beBytes2, beVal_beBytes2 _ h]
    have hd2 : (beBytes2 epc.length ++ (epc ++ ([p1, p2] ++ [ant]))).drop 2 =
        epc ++ ([p1, p2] ++ [ant]) := drop2_beBytes2 _ _
    have hdA : (beBytes2 epc.length ++
        (epc ++ ([p1, p2] ++ [ant]))).drop (2 + epc.length) =
        [p1, p2] ++ [ant] := by
      rw [← List.drop_drop, hd2, List.drop_left]
    have hdB : (beBytes2 epc.length ++
        (epc ++ ([p1, p2] ++ [ant]))).drop (2 + epc.length + 2) = [ant] := by
      rw [← List.drop_drop, hdA]; rfl
    simp only [parse_epc, hev, hd2, hlen, hdA, hdB]
    rw [if_neg (by omega), if_neg (by omega), if_neg (by omega), if_neg (by omega),
      if_neg (by omega)]
    rw [List.take_left]
    simp [List.take_left']

/-- C8 witness: the payload encoding EPC `ABCD0001`, PC `3000`, antenna
id 2 and RSSI pair `(0x01, 200)` parses to
`{epc := "ABCD0001", antenna_id := 2, rssi := 200}`, and without the RSSI
pair the rssi field is `none`. -/
theorem c8_parse_epc_witness :
    parse_epc [0x00, 0x04, 0xAB, 0xCD, 0x00, 0x01, 0x30, 0x00, 0x02, 0x01, 0xC8] =
      .ok { epc := "ABCD0001", pc := "3000", antenna_id := 2, rssi := some 200 } ∧
    parse_epc [0x00, 0x04, 0xAB, 0xCD, 0x00, 0x01, 0x30, 0x00, 0x02] =
      .ok { epc := "ABCD0001", pc := "3000", antenna_id := 2, rssi := none } := by
  have hc := c8_parse_epc [0xAB, 0xCD, 0x00, 0x01] 0x30 0x00 2 200 (by decide)
  exact ⟨hc.1, hc.2⟩

/-- C1 amended: for every payload `P` of length below `2^16` and every
command identifier `M` whose category byte has bit 5 clear (that is, bit
13 of `M` is clear, so `category << 8` does not collide with the RS485
flag in the PCW), `parse_frame (build_frame M P false false)` succeeds
and yields the low byte of `M` as the code, the high byte of `M` as the
category, payload `P`, and the CRC computed over control-word..payload. -/
theorem c1_roundtrip_amended (M : Nat) (P : List Nat)
    (hM : (M >>> 13) &&& 1 = 0) (hP : P.length < 65536) :
    ∃ pf, parse_frame (build_frame M P false false) = .ok pf ∧
      pf.mid = M &&& 0xFF ∧ pf.category = (M >>> 8) &&& 0xFF ∧ pf.data = P ∧
      pf.crc = crc16_ccitt (beBytes4 (build_pcw ((M >>> 8) &&& 0xFF) (M &&& 0xFF) false false) ++
        beBytes2 P.length ++ P) := by
  have hcat : (M >>> 8) &&& 0xFF = M / 256 % 256 := by
    rw [Nat.shiftRight_eq_div_pow, and_255_eq_mod]
  have hcode : M &&& 0xFF = M % 256 := and_255_eq_mod M
  have hcatlt : (M >>> 8) &&& 0xFF < 256 := by omega
  have hcodelt : M &&& 0xFF < 256 := by omega
  have hpcw : build_pcw ((M >>> 8) &&& 0xFF) (M &&& 0xFF) false false =
      65536 + ((M >>> 8) &&& 0xFF) * 256 + (M &&& 0xFF) :=
    build_pcw_val _ _ hcatlt hcodelt
  have h13 : ∀ n : Nat, n >>> 13 = n / 8192 := fun n => by
    rw [Nat.shiftRight_eq_div_pow]
  have hMdiv : M / 8192 % 2 = 0 := by
    rw [h13, and_1_eq_mod] at hM; exact hM
  simp only [build_frame, Bool.false_eq_true, if_false, List.append_nil,
    List.nil_append, List.append_assoc]
  set W := build_pcw ((M >>> 8) &&& 0xFF) (M &&& 0xFF) false false with hWdef
  have hWlt : W < 4294967296 := by rw [hpcw]; omega
  have hflag : (W >>> 13) &&& 1 = 0 := by
    rw [h13, and_1_eq_mod, hpcw, hcat, hcode]; omega
  set A := beBytes4 W with hAdef
  set L2 := beBytes2 P.length with hLdef
  set C := crc16_ccitt (A ++ (L2 ++ P)) with hCdef
  set CB := beBytes2 C with hCBdef
  have hA4 : A.length = 4 := by rw [hAdef]; rfl
  have hL2 : L2.length = 2 := by rw [hLdef]; rfl
  have hCB2 : CB.length = 2 := by rw [hCBdef]; rfl
  have hlen : (FRAME_HEADER :: (A ++ (L2 ++ (P ++ CB)))).length = 9 + P.length := by
    simp [hA4, hL2, hCB2]; omega
  have htk4 : List.take 4 (A ++ (L2 ++ (P ++ CB))) = A := List.take_left' hA4
  have hbeW : beVal A = W := by rw [hAdef]; exact beVal_beBytes4 W hWlt
  have hd4 : List.drop 4 (A ++ (L2 ++ (P ++ CB))) = L2 ++ (P ++ CB) :=
    List.drop_left' hA4
  have htk2 : List.take 2 (L2 ++ (P ++ CB)) = L2 := List.take_left' hL2
  have hbeL : beVal L2 = P.length := by rw [hLdef]; exact beVal_beBytes2 _ hP
  have hd6 : List.drop 6 (A ++ (L2 ++ (P ++ CB))) = P ++ CB := by
    rw [show (6 : Nat) = 4 + 2 from rfl, ← List.drop_drop, hd4]
    exact List.drop_left' hL2
  have hdata : List.take P.length (P ++ CB) = P := List.take_left P CB
  have hdC : List.drop (6 + P.length) (A ++ (L2 ++ (P ++ CB))) = CB := by
    rw [← List.drop_drop, hd6]
    exact List.drop_left P CB
  have htkCB : List.take 2 CB = CB := List.take_of_length_le (by rw [hCB2])
  have hbeC : beVal CB = C := by
    rw [hCBdef]; exact beVal_beBytes2 _ (by rw [hCdef]; exact crc16_ccitt_lt _)
  have hCtk : List.take (6 + P.length) (A ++ (L2 ++ (P ++ CB))) =
      A ++ (L2 ++ P) := by
    rw [show A ++ (L2 ++ (P ++ CB)) = (A ++ (L2 ++ P)) ++ CB by
      simp [List.append_assoc]]
    have hl : (A ++ (L2 ++ P)).length = 6 + P.length := by
      simp [hA4, hL2]
      omega
    exact List.take_left' hl
  simp only [parse_frame, List.headD_cons, hlen, List.drop_succ_cons,
    List.drop_zero, htk4, hbeW, hflag, htk2, hbeL]
  norm_num
  have hd7 : List.drop (7 + P.length) (FRAME_HEADER :: (A ++ (L2 ++ (P ++ CB)))) = CB := by
    rw [show 7 + P.length = (6 + P.length) + 1 by omega, List.drop_succ_cons, hdC]
  simp only [hd4, htk2, hbeL, hd7, htkCB, hbeC, hCtk, hd6, hdata]
  rw [if_neg (by omega), if_neg (by omega), if_pos trivial]
  refine ⟨_, rfl, ?_, ?_, rfl, rfl⟩
  · show W &&& 255 = M &&& 255
    rw [and_255_eq_mod, hcode, hpcw, hcat]
    omega
  · show (W >>> 8) &&& 255 = (M >>> 8) &&& 255
    have h8 : ∀ n : Nat, n >>> 8 = n / 256 := fun n => by
      rw [Nat.shiftRight_eq_div_pow]
    rw [h8 W, h8 M, and_255_eq_mod, and_255_eq_mod, hpcw, hcat, hcode]
    omega

/-- C1 witness: the roundtrip at the concrete command `0x0210` (read EPC
tag) with payload `[0xAA]`. -/
theorem c1_roundtrip_amended_witness :
    ((0x0210 : Nat) >>> 13) &&& 1 = 0 ∧ ([0xAA] : List Nat).length < 65536 ∧
    (∃ pf, parse_frame (build_frame 0x0210 [0xAA] false false) = .ok pf ∧
      pf.mid = 0x0210 &&& 0xFF ∧ pf.category = ((0x0210 : Nat) >>> 8) &&& 0xFF ∧
      pf.data = [0xAA] ∧
      pf.crc = crc16_ccitt (beBytes4 (build_pcw (((0x0210 : Nat) >>> 8) &&& 0xFF)
        (0x0210 &&& 0xFF) false false) ++ beBytes2 ([0xAA] : List Nat).length ++ [0xAA])) :=
  ⟨by decide, by decide,
   c1_roundtrip_amended 0x0210 [0xAA] (by decide) (by decide)⟩

/-- The address-byte count `parse_frame` derives from the RS485 flag of
the PCW (bit 13 of the four bytes after the header). -/
def parseAddrLen (raw : List Nat) : Nat :=
  if ((beVal ((raw.drop 1).take 4)) >>> 13) &&& 0x01 = 1 then 1 else 0

/-- The payload length `parse_frame` reads from the two bytes after the
PCW and the optional address byte. -/
def parseDeclaredLen (raw : List Nat) : Nat :=
  beVal ((raw.drop (5 + parseAddrLen raw)).take 2)

/-- The declared payload length (plus the trailing CRC) fits in the bytes
remaining after header, PCW, optional address and length field. -/
def declaredLenFits (raw : List Nat) : Prop :=
  5 + parseAddrLen raw + 2 + parseDeclaredLen raw + 2 ≤ raw.length

/-- The trailing CRC field equals the CRC recomputed over
control-word..payload (header and CRC itself excluded). -/
def trailingCrcMatches (raw : List Nat) : Prop :=
  beVal ((raw.drop (5 + parseAddrLen raw + 2 + parseDeclaredLen raw)).take 2) =
    crc16_ccitt ((raw.drop 1).take (5 + parseAddrLen raw + 2 + parseDeclaredLen raw - 1))

theorem parse_frame_error_iff (raw : List Nat) :
    isOkE (parse_frame raw) = false ↔
      raw.length < 9 ∨ raw.headD 0 ≠ FRAME_HEADER ∨
      ¬ declaredLenFits raw ∨ ¬ trailingCrcMatches raw := by
  simp only [parse_frame, isOkE, declaredLenFits, parseDeclaredLen,
    parseAddrLen, trailingCrcMatches]
  split_ifs with h1 h2 h3 h4 h5 h6 <;> simp_all <;> omega

/-- C6: `parse_frame` rejects a byte string exactly when it is shorter
than 9 bytes, its first byte is not the header constant `0x5A`, the
declared payload length does not fit in the remaining bytes, or the
trailing CRC does not match the CRC recomputed over
control-word..payload; otherwise it returns the parsed frame. -/
theorem c6_parse_frame_errors (raw : List Nat) :
    isOkE (parse_frame raw) = false ↔
      raw.length < 9 ∨ raw.headD 0 ≠ FRAME_HEADER ∨
      ¬ declaredLenFits raw ∨ ¬ trailingCrcMatches raw :=
  parse_frame_error_iff raw

/-- Well-formedness facts that hold of every frame accepted by
`extract_valid_frames`: minimum length, header byte, exact peeked length,
and matching trailing CRC. -/
def wfFrame (f : List Nat) : Prop :=
  9 ≤ f.length ∧ f.headD 0 = FRAME_HEADER ∧ f.length = peekFullLen f ∧
    frameCrcOk f = true

theorem peekFullLen_ge (l : List Nat) : 9 ≤ peekFullLen l := by
  simp only [peekFullLen]
  split <;> omega

theorem peekFullLen_take (l : List Nat) (full : Nat) (h9 : 9 ≤ full) :
    peekFullLen (l.take full) = peekFullLen l := by
  unfold peekFullLen
  rw [List.drop_take, List.take_take, Nat.min_eq_left (by omega)]
  rw [List.drop_take, List.take_take, Nat.min_eq_left (by omega)]

theorem extractGo_mem_wf (fuel : Nat) :
    ∀ (l : List Nat) (acc : List (List Nat)), (∀ g ∈ acc, wfFrame g) →
    ∀ f ∈ (extractGo fuel l acc).1, wfFrame f := by
  induction fuel with
  | zero => intro l acc hacc f hf; exact hacc f hf
  | succ n ih =>
    intro l acc hacc f hf
    match l with
    | [] => exact hacc f hf
    | d :: rest =>
      rw [extractGo] at hf
      by_cases hd : d ≠ FRAME_HEADER
      · rw [if_pos hd] at hf
        exact ih rest acc hacc f hf
      · rw [if_neg hd] at hf
        push_neg at hd
        by_cases h9 : (d :: rest).length < 9
        · rw [if_pos h9] at hf
          exact hacc f hf
        · rw [if_neg h9] at hf
          by_cases hfull : (d :: rest).length < peekFullLen (d :: rest)
          · rw [if_pos hfull] at hf
            exact hacc f hf
          · rw [if_neg hfull] at hf
            by_cases hcrc : frameCrcOk ((d :: rest).take (peekFullLen (d :: rest))) = true
            · rw [if_pos hcrc] at hf
              refine ih _ _ ?_ f hf
              intro g hg
              rcases List.mem_append.mp hg with hg | hg
              · exact hacc g hg
              · have hgeq : g = (d :: rest).take (peekFullLen (d :: rest)) := by
                  simpa using hg
                subst hgeq
                have h9f : 9 ≤ peekFullLen (d :: rest) := peekFullLen_ge _
                have hlenf : ((d :: rest).take (peekFullLen (d :: rest))).length =
                    peekFullLen (d :: rest) := by
                  rw [List.length_take]
                  omega
                refine ⟨by omega, ?_, ?_, hcrc⟩
                · rw [List.take_cons (by omega)]
                  simp [hd]
                · rw [hlenf, peekFullLen_take _ _ h9f]
            · rw [if_neg hcrc] at hf
              exact ih _ _ hacc f hf

theorem parse_of_wf (f : List Nat) (hwf : wfFrame f)
    (hrs : ¬ ((beVal ((f.drop 1).take 4)) >>> 13) &&& 0x01 = 1) :
    isOkE (parse_frame f) = true := by
  obtain ⟨h9, hhead, hlen, hcrc⟩ := hwf
  have haddr : parseAddrLen f = 0 := by
    unfold parseAddrLen
    rw [if_neg hrs]
  have hpeek : peekFullLen f = 9 + beVal ((f.drop 5).take 2) := by
    simp only [peekFullLen]
    rw [if_neg hrs]
    omega
  have hdecl : parseDeclaredLen f = beVal ((f.drop 5).take 2) := by
    unfold parseDeclaredLen
    rw [haddr]
  rcases Bool.eq_false_or_eq_true (isOkE (parse_frame f)) with hok | hfa
  · exact hok
  · exfalso
    rcases (parse_frame_error_iff f).mp hfa with hc | hc | hc | hc
    · omega
    · exact hc hhead
    · apply hc
      unfold declaredLenFits
      rw [haddr, hdecl]
      omega
    · apply hc
      unfold trailingCrcMatches
      rw [haddr, hdecl]
      unfold frameCrcOk at hcrc
      simp only [decide_eq_true_eq] at hcrc
      have e1 : 5 + 0 + 2 + beVal ((f.drop 5).take 2) = f.length - 2 := by omega
      rw [e1]
      have e2 : f.length - 2 - 1 = f.length - 3 := by omega
      rw [e2]
      have e3 : (f.drop (f.length - 2)).take 2 = f.drop (f.length - 2) :=
        List.take_of_length_le (by rw [List.length_drop]; omega)
      rw [e3]
      omega

/-- C10 amended: every frame returned by `extract_valid_frames` whose
PCW has the RS485 bit clear can be passed to `parse_frame` without an
error (it has the `0x5A` header, is at least 9 bytes long, its declared
payload length exactly fits, and its trailing CRC matches).  The RS485
restriction is forced by the counterexample: for RS485-flagged frames the
extractor peeks the length field at the wrong offset, and a frame it
accepts can be rejected by `parse_frame`. -/
theorem c10_extract_parse_amended (data f : List Nat)
    (hf : f ∈ extract_valid_frames data)
    (hrs : ¬ ((beVal ((f.drop 1).take 4)) >>> 13) &&& 0x01 = 1) :
    isOkE (parse_frame f) = true :=
  parse_of_wf f (extractGo_mem_wf data.length data [] (by simp) f hf) hrs

/-- C10 witness: the concrete tag frame is extracted from a buffer
holding exactly it, has the RS485 bit clear, and parses successfully. -/
theorem c10_extract_parse_amended_witness :
    frameTag ∈ extract_valid_frames frameTag ∧
    ¬ ((beVal ((frameTag.drop 1).take 4)) >>> 13) &&& 0x01 = 1 ∧
    isOkE (parse_frame frameTag) = true :=
  ⟨by decide, by decide,
   c10_extract_parse_amended frameTag frameTag (by decide) (by decide)⟩

theorem stopFramesVerdict_append (a b : List (List Nat)) :
    stopFramesVerdict (a ++ b) = (stopFramesVerdict a).or (stopFramesVerdict b) := by
  induction a with
  | nil => simp [stopFramesVerdict, Option.or]
  | cons f fs ih =>
    simp only [List.cons_append, stopFramesVerdict]
    cases stopFrameVerdict f with
    | some b => rfl
    | none => simpa [List.append_eq] using ih

theorem stop_confirm_go_eq (cs : List (List Nat)) :
    stop_confirm.go cs =
      (stopFramesVerdict (cs.flatMap extract_valid_frames)).getD false := by
  induction cs with
  | nil => rfl
  | cons c rest ih =>
    simp only [stop_confirm.go, List.flatMap_cons, stopFramesVerdict_append, ih]
    cases stopFramesVerdict (extract_valid_frames c) <;> simp [Option.or]

/-- C7 amended: the confirmation loop of `stop_inventory` returns true
exactly when, among the frames extracted from the first ten received
chunks in order, the first decisive frame (a stop response, MID `0xFF`,
or a read-end notification, MID in `{0x01, 0x21, 0x31}`) is either a
stop response with result code 0 or a read-end notification with ANY
reason code — not only the "stopped by command" reason the claim names;
a stop response with a nonzero result code makes it return false at
once. -/
theorem c7_stop_inventory_amended (chunks : List (List Nat)) :
    stop_confirm chunks = true ↔
      stopFramesVerdict ((chunks.take 10).flatMap extract_valid_frames) =
        some true := by
  rw [stop_confirm, stop_confirm_go_eq]
  cases h : stopFramesVerdict ((chunks.take 10).flatMap extract_valid_frames) with
  | none => simp
  | some b => cases b <;> simp

end Nation
